import Mathlib

/-!
Shallow embedding of the session/selection engine of `sshuttle-selector`
(`main.go`): the process scanner, the command builder, the catalog builder and
the selection controller, together with proofs of the specified properties.
Go strings are modelled as `List Char`; Go's standard-library string functions
are re-implemented with their documented semantics.
-/

namespace SSel

set_option maxRecDepth 16384

abbrev Str := List Char

/-- Go `strings.Contains s sub`: `sub` occurs as a contiguous substring of `s`. -/
def sContains (s sub : Str) : Bool := decide (sub <:+: s)

/-- Whitespace accepted by Go's `unicode.IsSpace` (the Latin-1 range): space, tab,
newline, vertical tab, form feed, carriage return, NEL and NBSP. -/
def goIsSpace (c : Char) : Bool :=
  c = ' ' || c = '\t' || c = '\n' || c = Char.ofNat 11 || c = Char.ofNat 12 || c = '\r'
    || c = Char.ofNat 0x85 || c = Char.ofNat 0xA0

/-- Helper of `fieldsGo`; `acc` holds the characters of the current field, reversed. -/
def fieldsAux (acc : Str) : Str → List Str
  | [] => if acc.isEmpty then [] else [acc.reverse]
  | c :: cs =>
    if goIsSpace c then
      if acc.isEmpty then fieldsAux [] cs else acc.reverse :: fieldsAux [] cs
    else fieldsAux (c :: acc) cs

/-- Go `strings.Fields`: split around maximal runs of whitespace. -/
def fieldsGo (s : Str) : List Str := fieldsAux [] s

/-- Drop a single trailing carriage return, as `bufio.ScanLines` does. -/
def dropCR (l : Str) : Str := if l.getLast? = some '\r' then l.dropLast else l

/-- Helper of `linesGo`; `acc` holds the characters of the current line, reversed. -/
def linesAux (acc : Str) : Str → List Str
  | [] => if acc.isEmpty then [] else [dropCR acc.reverse]
  | c :: cs =>
    if c = '\n' then dropCR acc.reverse :: linesAux [] cs else linesAux (c :: acc) cs

/-- Go `bufio.Scanner` with `ScanLines`: split on newlines, stripping one trailing
carriage return per line; a trailing newline yields no final empty line. -/
def linesGo (s : Str) : List Str := linesAux [] s

/-- Decimal digit test used by the `strconv.Atoi` model. -/
def isDigitGo (c : Char) : Bool := '0' ≤ c && c ≤ '9'

/-- Value of a non-empty string of decimal digits. -/
def digitsToNat (l : Str) : Nat := l.foldl (fun acc c => 10 * acc + (c.toNat - '0'.toNat)) 0

/-- Go `strconv.Atoi`: optional sign, then one or more decimal digits, with a
64-bit-`int` range check; `none` exactly when Go reports a non-nil error. -/
def goAtoi (s : Str) : Option Int :=
  let p : Bool × Str :=
    match s with
    | '+' :: rest => (false, rest)
    | '-' :: rest => (true, rest)
    | _ => (false, s)
  if p.2.isEmpty || !(p.2.all isDigitGo) then none
  else
    let n : Int := Int.ofNat (digitsToNat p.2)
    let v : Int := if p.1 then -n else n
    if v < -(2 ^ 63) || 2 ^ 63 - 1 < v then none else some v

/-- Bookkeeping step of the `strings.Split` model: push `c` onto the first segment. -/
def consHead (c : Char) : List Str → List Str
  | [] => [[c]]
  | seg :: segs => (c :: seg) :: segs

/-- Does the key-file flag `"-i "` sit at the head of the string? -/
def iFlagAtHead : Str → Bool
  | '-' :: 'i' :: ' ' :: _ => true
  | _ => false

/-- Fueled worker for `strings.Split(s, "-i ")`; fuel `s.length` always suffices. -/
def splitIAux : Nat → Str → List Str
  | 0, s => [s]
  | _ + 1, [] => [[]]
  | f + 1, c :: cs =>
    if iFlagAtHead (c :: cs) then [] :: splitIAux f (cs.drop 2)
    else consHead c (splitIAux f cs)

/-- Go `strings.Split(s, "-i ")`: the segments of `s` around each occurrence of `"-i "`. -/
def splitOnIFlag (s : Str) : List Str := splitIAux s.length s

/-- Go `strings.TrimSpace`: drop leading and trailing whitespace. -/
def sTrim (s : Str) : Str :=
  ((s.dropWhile goIsSpace).reverse.dropWhile goIsSpace).reverse

/-- Whitespace class of RE2's `\s`: `[\t\n\f\r ]`. -/
def reIsSpace (c : Char) : Bool := c = '\t' || c = '\n' || c = Char.ofNat 12 || c = '\r' || c = ' '

/-- Remainder of the string after the first occurrence of `pat`, if any. -/
def afterFirst (pat : Str) : Str → Option Str
  | [] => none
  | c :: cs =>
    if pat.isPrefixOf (c :: cs) then some ((c :: cs).drop pat.length) else afterFirst pat cs

/-- Match `-r\s+(\S+)` at the head of the string, returning the captured token. -/
def matchRTok : Str → Option Str
  | '-' :: 'r' :: rest =>
    let tok := (rest.dropWhile reIsSpace).takeWhile (fun c => !reIsSpace c)
    if (rest.takeWhile reIsSpace).isEmpty || tok.isEmpty then none else some tok
  | _ => none

/-- Destination extraction mirroring `regexp.MustCompile("sshuttle.*-r\\s+(\\S+)")`
with `FindStringSubmatch`: the match starts at the first `sshuttle`; the greedy `.*`
makes the capture come from the last position after it where `-r` is followed by
whitespace and a non-space token; `"unknown"` when there is no match. -/
def extractDest (line : Str) : Str :=
  match afterFirst ("sshuttle".data) line with
  | none => "unknown".data
  | some rest =>
    match (rest.tails.filterMap matchRTok).getLast? with
    | some tok => tok
    | none => "unknown".data

/-- The `itemType` enumeration of `main.go`. -/
inductive itemType
  | ItemActiveTunnel
  | ItemAvailableTunnel
  | ItemAction
deriving DecidableEq

/-- The `item` struct of `main.go`; unset fields take Go's zero values. -/
structure item where
  name : Str := []
  destination : Str := []
  command : Str := []
  itemType : itemType
  pid : Int := 0
deriving DecidableEq

/-- The `activeTunnel` struct of `main.go`. -/
structure activeTunnel where
  PID : Int
  Command : Str
  Destination : Str
deriving DecidableEq

/-- The `TunnelConfig` struct of `main.go` (one tunnel definition). -/
structure TunnelConfig where
  name : Str := []
  host : Str := []
  user : Str := []
  subnets : Str := []
  extraArgs : Str := []
deriving DecidableEq

/-- Key path extracted in `loadConfigTunnels`:
`strings.TrimSpace(strings.Split(tunnel.ExtraArgs, "-i ")[1])`. -/
def keyPathOf (t : TunnelConfig) : Str := sTrim ((splitOnIFlag t.extraArgs).getD 1 [])

/-- The `--ssh-cmd` payload assembled in `loadConfigTunnels`. -/
def sshCmdOf (debugMode : Bool) (t : TunnelConfig) : Str :=
  let s0 := "ssh -o StrictHostKeyChecking=no".data
  let s1 := if sContains t.extraArgs ("-i ".data) then s0 ++ " -i ".data ++ keyPathOf t else s0
  if debugMode then s1 ++ " -vvv".data else s1

/-- The trailing pass-through extra arguments appended in `loadConfigTunnels`
(the source appends `" " + ExtraArgs` only when `ExtraArgs` is non-empty and
does not contain `"-i "`). -/
def passThroughOf (t : TunnelConfig) : Str :=
  if !t.extraArgs.isEmpty && !sContains t.extraArgs ("-i ".data) then " ".data ++ t.extraArgs
  else []

/-- The full sshuttle command built per tunnel in `loadConfigTunnels`. -/
def buildCommand (debugMode : Bool) (t : TunnelConfig) : Str :=
  (if debugMode then
    "sshuttle -v -r ".data ++ t.user ++ "@".data ++ t.host ++ " ".data ++ t.subnets
      ++ " --ssh-cmd=\"".data ++ sshCmdOf debugMode t ++ "\"".data
  else
    "sshuttle -r ".data ++ t.user ++ "@".data ++ t.host ++ " ".data ++ t.subnets
      ++ " --daemon --ssh-cmd=\"".data ++ sshCmdOf debugMode t ++ "\"".data)
  ++ passThroughOf t

/-- The per-line filter of `getActiveTunnels`: the line mentions both `sshuttle`
and `-r`. -/
def lineMatches (line : Str) : Bool :=
  sContains line ("sshuttle".data) && sContains line ("-r".data)

/-- The second whitespace-delimited field of a line, parsed with `strconv.Atoi`. -/
def secondFieldInt (line : Str) : Option Int :=
  match fieldsGo line with
  | _ :: f1 :: _ => goAtoi f1
  | _ => none

/-- Per-line processing of `getActiveTunnels`: keep lines mentioning both `sshuttle`
and `-r`, with at least two whitespace-delimited fields whose second parses with
`strconv.Atoi`; malformed lines are skipped. -/
def processLine (line : Str) : Option activeTunnel :=
  if lineMatches line then
    match fieldsGo line with
    | _ :: f1 :: _ =>
      match goAtoi f1 with
      | some pid => some { PID := pid, Command := line, Destination := extractDest line }
      | none => none
    | _ => none
  else none

/-- `getActiveTunnels`, with the `ps aux` output (or its failure) as input; a
process-table failure is propagated to the caller. -/
def getActiveTunnels (ps : Except Unit Str) : Except Unit (List activeTunnel) :=
  match ps with
  | .error e => .error e
  | .ok out => .ok ((linesGo out).filterMap processLine)

/-- `isSelectableItem` of `main.go`: section headers (names containing `"TUNNEL"`)
and empty separators among `ItemAction` rows are not selectable. -/
def isSelectableItem (i : item) : Bool :=
  if i.itemType = itemType.ItemAction ∧ (sContains i.name ("TUNNEL".data) || i.name.isEmpty)
  then false else true

/-- The `CURRENT TUNNEL` header row of `loadAllItems`. -/
def currentHeaderItem : item := { name := "CURRENT TUNNEL".data, itemType := .ItemAction }

/-- The blank separator row of `loadAllItems`. -/
def separatorItem : item := { name := [], itemType := .ItemAction }

/-- The `AVAILABLE TUNNELS` header row of `loadAllItems`. -/
def availableHeaderItem : item := { name := "AVAILABLE TUNNELS".data, itemType := .ItemAction }

/-- The `+ Add New Tunnel` action row of `loadAllItems`. -/
def addNewItem : item :=
  { name := "+ Add New Tunnel".data, itemType := .ItemAction, command := "add_new".data }

/-- Decimal rendering of a natural number, as Go's `%d`. -/
def natToStr (n : Nat) : Str := Nat.toDigits 10 n

/-- Decimal rendering of an `int`, as Go's `%d`. -/
def intToStr (i : Int) : Str := if i < 0 then '-' :: natToStr i.natAbs else natToStr i.toNat

/-- The active-tunnel row built in `loadAllItems` for the first scanned tunnel. -/
def activeItemOf (t : activeTunnel) : item :=
  { name := "● ".data ++ t.Destination ++ " (PID: ".data ++ intToStr t.PID
      ++ ") - Click to stop".data
    destination := t.Destination
    command := "kill ".data ++ intToStr t.PID
    itemType := .ItemActiveTunnel
    pid := t.PID }

/-- The available-tunnel row built per config entry in `loadConfigTunnels`. -/
def buildItem (debugMode : Bool) (t : TunnelConfig) : item :=
  { name := t.name
    destination := t.user ++ "@".data ++ t.host
    command := buildCommand debugMode t
    itemType := .ItemAvailableTunnel }

/-- The rows produced from the configured tunnel definitions, in input order. -/
def loadConfigItems (debugMode : Bool) (ts : List TunnelConfig) : List item :=
  ts.map (buildItem debugMode)

/-- `loadAllItems` with the scanner output already resolved: if any tunnel is
active, only the first is shown, under a `CURRENT TUNNEL` header and followed by
a separator; then the available section, a separator and the add-new action. -/
def loadAllItemsFrom (debugMode : Bool) (acts : List activeTunnel) (ts : List TunnelConfig) :
    List item :=
  (match acts with
   | [] => []
   | t :: _ => [currentHeaderItem, activeItemOf t, separatorItem])
  ++ [availableHeaderItem] ++ loadConfigItems debugMode ts ++ [separatorItem, addNewItem]

/-- `loadAllItems` from the raw scanner result: a scan failure is logged (the
Boolean component) and treated as zero active tunnels instead of failing. -/
def loadAllItemsE (debugMode : Bool) (ps : Except Unit Str) (ts : List TunnelConfig) :
    List item × Bool :=
  match getActiveTunnels ps with
  | .error _ => (loadAllItemsFrom debugMode [] ts, true)
  | .ok acts => (loadAllItemsFrom debugMode acts ts, false)

/-- Classification of a catalog row into the specification's entry kinds,
following the distinctions drawn by `isSelectableItem` and the renderer. -/
inductive EntryKind
  | sectionHeader
  | separator
  | activeRow
  | availableRow
  | actionRow
deriving DecidableEq

/-- The entry kind of an `item`. -/
def entryKind (i : item) : EntryKind :=
  match i.itemType with
  | .ItemActiveTunnel => .activeRow
  | .ItemAvailableTunnel => .availableRow
  | .ItemAction =>
    if i.name.isEmpty then .separator
    else if sContains i.name ("TUNNEL".data) then .sectionHeader
    else .actionRow

/-- Selectability of the row at index `j`, false out of bounds. -/
def isSelectableAt (l : List item) (j : Nat) : Bool :=
  match l[j]? with
  | some it => isSelectableItem it
  | none => false

/-- Fueled worker for the `down`/`j` handler: first selectable index at or after
`i`; fuel `l.length` always suffices. -/
def findFromAux (l : List item) : Nat → Nat → Option Nat
  | 0, _ => none
  | f + 1, i =>
    match l[i]? with
    | none => none
    | some it => if isSelectableItem it then some i else findFromAux l f (i + 1)

/-- The `down`/`j` handler of `model.Update`: scan forward from `idx + 1` for the
first selectable row; leave the cursor in place when none exists. -/
def moveDown (l : List item) (idx : Nat) : Nat :=
  match findFromAux l l.length (idx + 1) with
  | some j => j
  | none => idx

/-- Backward scan of the `up`/`k` handler: check `j, j - 1, ..., 0` for a
selectable row. -/
def moveUpScan (l : List item) : Nat → Option Nat
  | 0 => if isSelectableAt l 0 then some 0 else none
  | j + 1 => if isSelectableAt l (j + 1) then some (j + 1) else moveUpScan l j

/-- The `up`/`k` handler of `model.Update`: scan backward from `idx - 1` for the
first selectable row; leave the cursor in place when none exists. -/
def moveUp (l : List item) (idx : Nat) : Nat :=
  match idx with
  | 0 => 0
  | j + 1 =>
    match moveUpScan l j with
    | some k => k
    | none => j + 1

/-- External calls emitted by the controller, in issue order. -/
inductive ExtEvent
  | killReq (pid : Int)
  | logWarn
  | yieldCmd (cmd : Str)
deriving DecidableEq

/-- `killAllTunnels`: scan, then request termination of each tunnel found, in scan
order (kill failures are logged and the loop continues); the Boolean reports a
scan failure, which is returned as the function's error. -/
def killAllTrace (ps : Except Unit Str) : List ExtEvent × Bool :=
  match getActiveTunnels ps with
  | .error _ => ([], true)
  | .ok ts => (ts.map (fun t => ExtEvent.killReq t.PID), false)

/-- The `model` state of `main.go` restricted to the fields the selection logic
touches. -/
structure NavModel where
  items : List item
  index : Nat
  choice : Str := []
  quitting : Bool := false
deriving DecidableEq

/-- `m.list.SelectedItem()`. -/
def selectedItemOf (m : NavModel) : Option item := m.items[m.index]?

/-- The `enter` branch of `model.Update`: next model, external calls in order, and
whether the session quits. `killOk` models success of a single `kill`, and
`killErrText` the error text interpolated into the failure message. -/
def confirmEnter (killOk : Int → Bool) (killErrText : Int → Str) (ps : Except Unit Str)
    (m : NavModel) : NavModel × List ExtEvent × Bool :=
  match selectedItemOf m with
  | some i =>
    if isSelectableItem i then
      match i.itemType with
      | .ItemActiveTunnel =>
        if killOk i.pid then
          ({ m with choice := "Tunnel stopped: ".data ++ i.destination },
            [ExtEvent.killReq i.pid], true)
        else
          ({ m with choice := "Failed to stop tunnel: ".data ++ killErrText i.pid },
            [ExtEvent.killReq i.pid], true)
      | .ItemAvailableTunnel =>
        ({ m with choice := i.command },
          (killAllTrace ps).1 ++ (if (killAllTrace ps).2 then [ExtEvent.logWarn] else [])
            ++ [ExtEvent.yieldCmd i.command],
          true)
      | .ItemAction =>
        if i.command = "add_new".data then
          ({ m with choice := "add_new_tunnel".data }, [], true)
        else (m, [], true)
    else (m, [], true)
  | none => (m, [], true)

/-- The external calls issued by one `enter` confirmation, in order. -/
def confirmEvents (killOk : Int → Bool) (killErrText : Int → Str) (ps : Except Unit Str)
    (m : NavModel) : List ExtEvent :=
  (confirmEnter killOk killErrText ps m).2.1

/-! General lemmas about substring occurrence in concatenations. -/

/-- An occurrence of `p` inside `a ++ b` lies in `a`, lies in `b`, or straddles the
boundary, splitting `p` after its first `k` characters. -/
theorem infix_append_cases {p a b : Str} (h : p <:+: a ++ b) :
    p <:+: a ∨ p <:+: b ∨
      ∃ k, 0 < k ∧ k < p.length ∧ p.take k <:+ a ∧ p.drop k <+: b := by
  obtain ⟨s, t, hst⟩ := h
  rcases List.append_eq_append_iff.mp hst with ⟨a', ha', _⟩ | ⟨c', hc', hb'⟩
  · exact Or.inl ⟨s, a', ha'.symm⟩
  · rcases List.append_eq_append_iff.mp hc' with ⟨a₂, ha₂, hp₂⟩ | ⟨c₂, _, hc₂⟩
    · rcases eq_or_ne a₂ [] with rfl | hne₂
      · refine Or.inr (Or.inl ?_)
        refine ⟨[], t, ?_⟩
        simp only [hp₂, List.nil_append] at *
        rw [hb']
      · rcases eq_or_ne c' [] with rfl | hnec
        · refine Or.inl ?_
          refine ⟨s, [], ?_⟩
          simp only [List.append_nil] at hp₂ ⊢
          rw [ha₂, hp₂]
        · refine Or.inr (Or.inr ⟨a₂.length, ?_, ?_, ?_, ?_⟩)
          · exact List.length_pos.mpr hne₂
          · rw [hp₂, List.length_append]
            have : 0 < c'.length := List.length_pos.mpr hnec
            omega
          · rw [hp₂, List.take_left]
            exact ⟨s, ha₂.symm⟩
          · rw [hp₂, List.drop_left]
            exact ⟨t, hb'.symm⟩
    · refine Or.inr (Or.inl ?_)
      refine ⟨c₂, t, ?_⟩
      rw [hb', hc₂, List.append_assoc]

/-- `p` cannot occur in `a ++ b` when it occurs in neither part and no straddling
split is possible. -/
theorem not_infix_append {p a b : Str} (ha : ¬ p <:+: a) (hb : ¬ p <:+: b)
    (hk : ∀ k, k < p.length → 0 < k → ¬(p.take k <:+ a ∧ p.drop k <+: b)) :
    ¬ p <:+: a ++ b := by
  intro h
  rcases infix_append_cases h with h | h | ⟨k, hk1, hk2, hs, ht⟩
  · exact ha h
  · exact hb h
  · exact hk k hk2 hk1 ⟨hs, ht⟩

/-- A non-empty prefix of `c :: r` starts with `c`. -/
theorem prefix_head_eq {l r : Str} {c : Char} (h : l <+: c :: r) (hl : l ≠ []) :
    l.head? = some c := by
  obtain ⟨t, ht⟩ := h
  cases l with
  | nil => exact absurd rfl hl
  | cons x xs =>
    injection ht with h1 _
    rw [h1]; rfl

/-- Straddling splits die when every candidate second half starts with a character
other than the head of the right-hand side. -/
theorem span_kill_head {p a b' : Str} {c : Char}
    (hhead : ∀ k, k < p.length → 0 < k → ((p.drop k).head? = some c → False)) :
    ∀ k, k < p.length → 0 < k → ¬(p.take k <:+ a ∧ p.drop k <+: c :: b') := by
  intro k h2 h1 hsp
  have hne : p.drop k ≠ [] := by
    intro he
    have := congrArg List.length he
    simp only [List.length_drop, List.length_nil] at this
    omega
  exact hhead k h2 h1 (prefix_head_eq hsp.2 hne)

/-- Straddling splits die when no candidate first half is a suffix of the left-hand
side. -/
theorem span_kill_take {p a b : Str}
    (htake : ∀ k, k < p.length → 0 < k → ¬ p.take k <:+ a) :
    ∀ k, k < p.length → 0 < k → ¬(p.take k <:+ a ∧ p.drop k <+: b) :=
  fun k h2 h1 hsp => htake k h2 h1 hsp.1

/-- Occurrence in the left part of a concatenation. -/
theorem infix_app_left {p a : Str} (b : Str) (h : p <:+: a) : p <:+: a ++ b :=
  List.IsInfix.trans h ⟨[], b, by simp⟩

/-- Occurrence in the right part of a concatenation. -/
theorem infix_app_right (a : Str) {p b : Str} (h : p <:+: b) : p <:+: a ++ b :=
  List.IsInfix.trans h ⟨a, [], by simp⟩

/-! Facts tying `keyPathOf` back to the extra-argument string. -/

/-- Trimming yields a contiguous substring of the input. -/
theorem sTrim_sub (s : Str) : sTrim s <:+: s := by
  unfold sTrim
  have h1 : s.dropWhile goIsSpace <:+ s := List.dropWhile_suffix _
  have h2 : ((s.dropWhile goIsSpace).reverse.dropWhile goIsSpace).reverse <+:
      s.dropWhile goIsSpace := by
    rw [← List.reverse_suffix]
    simpa using List.dropWhile_suffix (l := (s.dropWhile goIsSpace).reverse) goIsSpace
  exact List.IsInfix.trans (List.IsPrefix.isInfix h2) (List.IsSuffix.isInfix h1)

/-- The fueled splitter always yields a first segment that is a prefix of the input
and later segments that are contiguous substrings of it. -/
theorem splitIAux_first_rest (f : Nat) (s : Str) :
    ∃ seg rest, splitIAux f s = seg :: rest ∧ seg <+: s ∧ ∀ x ∈ rest, x <:+: s := by
  induction f generalizing s with
  | zero => exact ⟨s, [], rfl, List.prefix_refl s, by simp⟩
  | succ f ih =>
    cases s with
    | nil => exact ⟨[], [], rfl, by simp, by simp⟩
    | cons c cs =>
      by_cases hf : iFlagAtHead (c :: cs)
      · obtain ⟨seg, rest, he, hp, hr⟩ := ih (cs.drop 2)
        refine ⟨[], splitIAux f (cs.drop 2), by simp [splitIAux, hf], by simp, ?_⟩
        intro x hx
        have hxi : x <:+: cs.drop 2 := by
          rw [he] at hx
          rcases List.mem_cons.mp hx with rfl | hx
          · exact List.IsPrefix.isInfix hp
          · exact hr x hx
        have hs2 : cs.drop 2 <:+ c :: cs :=
          List.IsSuffix.trans (List.drop_suffix 2 cs) (List.suffix_cons c cs)
        exact List.IsInfix.trans hxi (List.IsSuffix.isInfix hs2)
      · obtain ⟨seg, rest, he, hp, hr⟩ := ih cs
        refine ⟨c :: seg, rest, ?_, ?_, ?_⟩
        · simp [splitIAux, hf, he, consHead]
        · exact List.cons_prefix_cons.mpr ⟨rfl, hp⟩
        · intro x hx
          exact List.infix_cons (hr x hx)

/-- The extracted key path is a contiguous substring of the extra-argument string. -/
theorem keyPath_sub (t : TunnelConfig) : keyPathOf t <:+: t.extraArgs := by
  unfold keyPathOf splitOnIFlag
  obtain ⟨seg, rest, he, _, hr⟩ := splitIAux_first_rest t.extraArgs.length t.extraArgs
  rw [he]
  cases rest with
  | nil =>
    simp only [List.getD_cons_succ, List.getD]
    exact List.nil_infix
  | cons x xs =>
    simp only [List.getD_cons_succ, List.getD_cons_zero]
    exact List.IsInfix.trans (sTrim_sub x) (hr x (by simp))

/-- With clean fields, the normal-mode command contains no `"-v "`. -/
theorem noV_normal (d : TunnelConfig)
    (hu : ¬ "-v ".data <:+: d.user)
    (hh : ¬ "-v ".data <:+: d.host) (hh2 : ¬ "-v".data <:+ d.host)
    (hsn : ¬ "-v ".data <:+: d.subnets) (hsn2 : ¬ "-v".data <:+ d.subnets)
    (he : ¬ "-v ".data <:+: d.extraArgs) :
    ¬ "-v ".data <:+: buildCommand false d := by
  have hkp : ¬ "-v ".data <:+: keyPathOf d :=
    fun h => he (List.IsInfix.trans h (keyPath_sub d))
  cases hci : sContains d.extraArgs ("-i ".data) with
  | true =>
    have hb : buildCommand false d =
        "sshuttle -r ".data ++ (d.user ++ ("@".data ++ (d.host ++ (" ".data ++ (d.subnets ++
          (" --daemon --ssh-cmd=\"".data ++ ("ssh -o StrictHostKeyChecking=no".data ++
            (" -i ".data ++ (keyPathOf d ++ "\"".data))))))))) := by
      simp [buildCommand, sshCmdOf, passThroughOf, hci, List.append_assoc]
    rw [hb]
    refine not_infix_append (by decide) ?_ (span_kill_take (by decide))
    refine not_infix_append hu ?_ (span_kill_head (by decide))
    refine not_infix_append (by decide) ?_ (span_kill_take (by decide))
    refine not_infix_append hh ?_ ?_
    · refine not_infix_append (by decide) ?_ (span_kill_take (by decide))
      refine not_infix_append hsn ?_ ?_
      · refine not_infix_append (by decide) ?_ (span_kill_take (by decide))
        refine not_infix_append (by decide) ?_ (span_kill_take (by decide))
        refine not_infix_append (by decide) ?_ (span_kill_take (by decide))
        exact not_infix_append hkp (by decide) (span_kill_head (by decide))
      · intro k hk2 hk1 hsp
        have hk12 : k = 1 ∨ k = 2 := by
          simp only [List.length] at hk2
          omega
        rcases hk12 with rfl | rfl
        · exact absurd (prefix_head_eq hsp.2 (by decide)) (by decide)
        · exact hsn2 hsp.1
    · intro k hk2 hk1 hsp
      have hk12 : k = 1 ∨ k = 2 := by
        simp only [List.length] at hk2
        omega
      rcases hk12 with rfl | rfl
      · exact absurd (prefix_head_eq hsp.2 (by decide)) (by decide)
      · exact hh2 hsp.1
  | false =>
    cases he0 : d.extraArgs.isEmpty with
    | true =>
      have hb : buildCommand false d =
          "sshuttle -r ".data ++ (d.user ++ ("@".data ++ (d.host ++ (" ".data ++ (d.subnets ++
            (" --daemon --ssh-cmd=\"".data ++ ("ssh -o StrictHostKeyChecking=no".data ++
              "\"".data))))))) := by
        simp [buildCommand, sshCmdOf, passThroughOf, hci, he0, List.append_assoc]
      rw [hb]
      refine not_infix_append (by decide) ?_ (span_kill_take (by decide))
      refine not_infix_append hu ?_ (span_kill_head (by decide))
      refine not_infix_append (by decide) ?_ (span_kill_take (by decide))
      refine not_infix_append hh ?_ ?_
      · refine not_infix_append (by decide) ?_ (span_kill_take (by decide))
        refine not_infix_append hsn ?_ ?_
        · refine not_infix_append (by decide) ?_ (span_kill_take (by decide))
          exact not_infix_append (by decide) (by decide) (span_kill_take (by decide))
        · intro k hk2 hk1 hsp
          have hk12 : k = 1 ∨ k = 2 := by
            simp only [List.length] at hk2
            omega
          rcases hk12 with rfl | rfl
          · exact absurd (prefix_head_eq hsp.2 (by decide)) (by decide)
          · exact hsn2 hsp.1
      · intro k hk2 hk1 hsp
        have hk12 : k = 1 ∨ k = 2 := by
          simp only [List.length] at hk2
          omega
        rcases hk12 with rfl | rfl
        · exact absurd (prefix_head_eq hsp.2 (by decide)) (by decide)
        · exact hh2 hsp.1
    | false =>
      have hb : buildCommand false d =
          "sshuttle -r ".data ++ (d.user ++ ("@".data ++ (d.host ++ (" ".data ++ (d.subnets ++
            (" --daemon --ssh-cmd=\"".data ++ ("ssh -o StrictHostKeyChecking=no".data ++
              ("\"".data ++ (" ".data ++ d.extraArgs))))))))) := by
        simp [buildCommand, sshCmdOf, passThroughOf, hci, he0, List.append_assoc]
      rw [hb]
      refine not_infix_append (by decide) ?_ (span_kill_take (by decide))
      refine not_infix_append hu ?_ (span_kill_head (by decide))
      refine not_infix_append (by decide) ?_ (span_kill_take (by decide))
      refine not_infix_append hh ?_ ?_
      · refine not_infix_append (by decide) ?_ (span_kill_take (by decide))
        refine not_infix_append hsn ?_ ?_
        · refine not_infix_append (by decide) ?_ (span_kill_take (by decide))
          refine not_infix_append (by decide) ?_ (span_kill_take (by decide))
          refine not_infix_append (by decide) ?_ (span_kill_take (by decide))
          exact not_infix_append (by decide) he (span_kill_take (by decide))
        · intro k hk2 hk1 hsp
          have hk12 : k = 1 ∨ k = 2 := by
            simp only [List.length] at hk2
            omega
          rcases hk12 with rfl | rfl
          · exact absurd (prefix_head_eq hsp.2 (by decide)) (by decide)
          · exact hsn2 hsp.1
      · intro k hk2 hk1 hsp
        have hk12 : k = 1 ∨ k = 2 := by
          simp only [List.length] at hk2
          omega
        rcases hk12 with rfl | rfl
        · exact absurd (prefix_head_eq hsp.2 (by decide)) (by decide)
        · exact hh2 hsp.1

/-- With clean fields, the debug-mode command contains no `"--daemon"`. -/
theorem noDaemon_debug (d : TunnelConfig)
    (hu : ¬ "--daemon".data <:+: d.user)
    (hh : ¬ "--daemon".data <:+: d.host)
    (hsn : ¬ "--daemon".data <:+: d.subnets)
    (he : ¬ "--daemon".data <:+: d.extraArgs) :
    ¬ "--daemon".data <:+: buildCommand true d := by
  have hkp : ¬ "--daemon".data <:+: keyPathOf d :=
    fun h => he (List.IsInfix.trans h (keyPath_sub d))
  cases hci : sContains d.extraArgs ("-i ".data) with
  | true =>
    have hb : buildCommand true d =
        "sshuttle -v -r ".data ++ (d.user ++ ("@".data ++ (d.host ++ (" ".data ++ (d.subnets ++
          (" --ssh-cmd=\"".data ++ ("ssh -o StrictHostKeyChecking=no".data ++
            (" -i ".data ++ (keyPathOf d ++ (" -vvv".data ++ "\"".data)))))))))) := by
      simp [buildCommand, sshCmdOf, passThroughOf, hci, List.append_assoc]
    rw [hb]
    refine not_infix_append (by decide) ?_ (span_kill_take (by decide))
    refine not_infix_append hu ?_ (span_kill_head (by decide))
    refine not_infix_append (by decide) ?_ (span_kill_take (by decide))
    refine not_infix_append hh ?_ (span_kill_head (by decide))
    refine not_infix_append (by decide) ?_ (span_kill_take (by decide))
    refine not_infix_append hsn ?_ (span_kill_head (by decide))
    refine not_infix_append (by decide) ?_ (span_kill_take (by decide))
    refine not_infix_append (by decide) ?_ (span_kill_take (by decide))
    refine not_infix_append (by decide) ?_ (span_kill_take (by decide))
    refine not_infix_append hkp ?_ (span_kill_head (by decide))
    exact not_infix_append (by decide) (by decide) (span_kill_take (by decide))
  | false =>
    cases he0 : d.extraArgs.isEmpty with
    | true =>
      have hb : buildCommand true d =
          "sshuttle -v -r ".data ++ (d.user ++ ("@".data ++ (d.host ++ (" ".data ++ (d.subnets ++
            (" --ssh-cmd=\"".data ++ ("ssh -o StrictHostKeyChecking=no".data ++
              (" -vvv".data ++ "\"".data)))))))) := by
        simp [buildCommand, sshCmdOf, passThroughOf, hci, he0, List.append_assoc]
      rw [hb]
      refine not_infix_append (by decide) ?_ (span_kill_take (by decide))
      refine not_infix_append hu ?_ (span_kill_head (by decide))
      refine not_infix_append (by decide) ?_ (span_kill_take (by decide))
      refine not_infix_append hh ?_ (span_kill_head (by decide))
      refine not_infix_append (by decide) ?_ (span_kill_take (by decide))
      refine not_infix_append hsn ?_ (span_kill_head (by decide))
      refine not_infix_append (by decide) ?_ (span_kill_take (by decide))
      refine not_infix_append (by decide) ?_ (span_kill_take (by decide))
      exact not_infix_append (by decide) (by decide) (span_kill_take (by decide))
    | false =>
      have hb : buildCommand true d =
          "sshuttle -v -r ".data ++ (d.user ++ ("@".data ++ (d.host ++ (" ".data ++ (d.subnets ++
            (" --ssh-cmd=\"".data ++ ("ssh -o StrictHostKeyChecking=no".data ++
              (" -vvv".data ++ ("\"".data ++ (" ".data ++ d.extraArgs)))))))))) := by
        simp [buildCommand, sshCmdOf, passThroughOf, hci, he0, List.append_assoc]
      rw [hb]
      refine not_infix_append (by decide) ?_ (span_kill_take (by decide))
      refine not_infix_append hu ?_ (span_kill_head (by decide))
      refine not_infix_append (by decide) ?_ (span_kill_take (by decide))
      refine not_infix_append hh ?_ (span_kill_head (by decide))
      refine not_infix_append (by decide) ?_ (span_kill_take (by decide))
      refine not_infix_append hsn ?_ (span_kill_head (by decide))
      refine not_infix_append (by decide) ?_ (span_kill_take (by decide))
      refine not_infix_append (by decide) ?_ (span_kill_take (by decide))
      refine not_infix_append (by decide) ?_ (span_kill_take (by decide))
      refine not_infix_append (by decide) ?_ (span_kill_take (by decide))
      exact not_infix_append (by decide) he (span_kill_take (by decide))

/-- The normal-mode command always carries the daemon flag. -/
theorem hasDaemon_normal (d : TunnelConfig) : "--daemon".data <:+: buildCommand false d := by
  have hb : buildCommand false d =
      "sshuttle -r ".data ++ (d.user ++ ("@".data ++ (d.host ++ (" ".data ++ (d.subnets ++
        (" --daemon --ssh-cmd=\"".data ++ (sshCmdOf false d ++
          ("\"".data ++ passThroughOf d)))))))) := by
    simp [buildCommand, List.append_assoc]
  rw [hb]
  refine infix_app_right _ (infix_app_right _ (infix_app_right _ (infix_app_right _
    (infix_app_right _ (infix_app_right _ (infix_app_left _ ?_))))))
  decide

/-- The debug-mode command always carries the verbose flag. -/
theorem hasV_debug (d : TunnelConfig) : "-v ".data <:+: buildCommand true d := by
  have hb : buildCommand true d =
      "sshuttle -v -r ".data ++ (d.user ++ ("@".data ++ (d.host ++ (" ".data ++ (d.subnets ++
        (" --ssh-cmd=\"".data ++ (sshCmdOf true d ++
          ("\"".data ++ passThroughOf d)))))))) := by
    simp [buildCommand, List.append_assoc]
  rw [hb]
  exact infix_app_left _ (by decide)

/-- C2 (amended): for every definition whose user, host, subnets and extra-args
fields contain neither `"-v "` nor `"--daemon"` as substrings, and whose host and
subnets do not end in `"-v"`, the command built with debug off contains
`"--daemon"` and never `"-v "`, and the command built with debug on contains
`"-v "` and never `"--daemon"`. (Unrestricted fields can smuggle either substring
into the command, e.g. through the pass-through extra arguments.) -/
theorem C2_daemon_verbose (d : TunnelConfig)
    (hu1 : ¬ "-v ".data <:+: d.user) (hu2 : ¬ "--daemon".data <:+: d.user)
    (hh1 : ¬ "-v ".data <:+: d.host) (hh2 : ¬ "--daemon".data <:+: d.host)
    (hh3 : ¬ "-v".data <:+ d.host)
    (hs1 : ¬ "-v ".data <:+: d.subnets) (hs2 : ¬ "--daemon".data <:+: d.subnets)
    (hs3 : ¬ "-v".data <:+ d.subnets)
    (he1 : ¬ "-v ".data <:+: d.extraArgs) (he2 : ¬ "--daemon".data <:+: d.extraArgs) :
    sContains (buildCommand false d) ("--daemon".data) = true ∧
    sContains (buildCommand false d) ("-v ".data) = false ∧
    sContains (buildCommand true d) ("-v ".data) = true ∧
    sContains (buildCommand true d) ("--daemon".data) = false := by
  refine ⟨?_, ?_, ?_, ?_⟩
  · simp only [sContains, decide_eq_true_eq]
    exact hasDaemon_normal d
  · simp only [sContains, decide_eq_false_iff_not]
    exact noV_normal d hu1 hh1 hh3 hs1 hs3 he1
  · simp only [sContains, decide_eq_true_eq]
    exact hasV_debug d
  · simp only [sContains, decide_eq_false_iff_not]
    exact noDaemon_debug d hu2 hh2 hs2 he2

/-- A definition whose extra-args mention `--daemon`, falsifying claim C2 as stated. -/
def extraDaemonDef : TunnelConfig :=
  { name := "n".data, host := "h".data, user := "u".data, subnets := "10.0.0.0/8".data,
    extraArgs := "--daemon".data }

/-- A definition whose extra-args mention `-v`, falsifying claim C2 as stated. -/
def extraVerboseDef : TunnelConfig :=
  { name := "n".data, host := "h".data, user := "u".data, subnets := "10.0.0.0/8".data,
    extraArgs := "-v x".data }

/-- C2 counterexample: with extra-args `"--daemon"` the debug-mode command does
contain `"--daemon"`, and with extra-args `"-v x"` the normal-mode command does
contain `"-v "`, contradicting the claim's two "never" parts. -/
theorem C2_daemon_verbose_counterexample :
    sContains (buildCommand true extraDaemonDef) ("--daemon".data) = true ∧
    sContains (buildCommand false extraVerboseDef) ("-v ".data) = true := by
  exact ⟨by decide, by decide⟩

/-- A clean definition used to instantiate the amended claim C2. -/
def cleanDef : TunnelConfig :=
  { name := "Example".data, host := "example.com".data, user := "ubuntu".data,
    subnets := "10.0.0.0/8".data, extraArgs := "-i ~/.ssh/key.pem".data }

/-- Witness for the amended claim C2 at a concrete clean definition. -/
theorem C2_daemon_verbose_witness :
    sContains (buildCommand false cleanDef) ("--daemon".data) = true ∧
    sContains (buildCommand false cleanDef) ("-v ".data) = false ∧
    sContains (buildCommand true cleanDef) ("-v ".data) = true ∧
    sContains (buildCommand true cleanDef) ("--daemon".data) = false :=
  C2_daemon_verbose cleanDef (by decide) (by decide) (by decide) (by decide) (by decide)
    (by decide) (by decide) (by decide) (by decide) (by decide)

/-- C1 (amended): for every definition whose extra-argument string contains the
key-file flag `"-i "`, the builder extracts everything after the first `"-i "`
occurrence (up to the next occurrence, if any), trimmed of surrounding
whitespace — it does not stop at the next space — appends it as the ssh key
option inside `--ssh-cmd`, and excludes the entire extra-argument string from
the pass-through portion, which is empty; in particular for extra-args
`"-i ~/.ssh/k.pem --dns"` the `--ssh-cmd` option contains `-i ~/.ssh/k.pem`
(with `--dns` inside the ssh command as well) and the trailing pass-through
portion is empty rather than containing `--dns`. -/
theorem C1_keyflag_consumed (d : TunnelConfig) (debugMode : Bool)
    (hci : sContains d.extraArgs ("-i ".data) = true) :
    sshCmdOf debugMode d =
      ("ssh -o StrictHostKeyChecking=no".data ++ " -i ".data ++ keyPathOf d)
        ++ (if debugMode then " -vvv".data else []) ∧
    passThroughOf d = [] ∧
    sContains (sshCmdOf debugMode d) (" -i ".data ++ keyPathOf d) = true ∧
    buildCommand debugMode d =
      (if debugMode then
        "sshuttle -v -r ".data ++ d.user ++ "@".data ++ d.host ++ " ".data ++ d.subnets
          ++ " --ssh-cmd=\"".data ++ sshCmdOf debugMode d ++ "\"".data
      else
        "sshuttle -r ".data ++ d.user ++ "@".data ++ d.host ++ " ".data ++ d.subnets
          ++ " --daemon --ssh-cmd=\"".data ++ sshCmdOf debugMode d ++ "\"".data) := by
  have hpt : passThroughOf d = [] := by
    simp [passThroughOf, hci]
  refine ⟨?_, hpt, ?_, ?_⟩
  · cases debugMode <;> simp [sshCmdOf, hci]
  · simp only [sContains, decide_eq_true_eq]
    refine ⟨"ssh -o StrictHostKeyChecking=no".data,
      if debugMode then " -vvv".data else [], ?_⟩
    cases debugMode <;> simp [sshCmdOf, hci, List.append_assoc]
  · cases debugMode <;> simp [buildCommand, hpt]

/-- The claim's example definition, with extra-args `"-i ~/.ssh/k.pem --dns"`. -/
def exampleKeyDef : TunnelConfig :=
  { name := "n".data, host := "h".data, user := "u".data, subnets := "10.0.0.0/8".data,
    extraArgs := "-i ~/.ssh/k.pem --dns".data }

/-- C1 counterexample: on the example definition the extracted key token is the
whole remainder `"~/.ssh/k.pem --dns"`, not the space-delimited token
`"~/.ssh/k.pem"`, and the trailing pass-through portion is empty, so it does not
contain `"--dns"`. -/
theorem C1_keyflag_counterexample :
    keyPathOf exampleKeyDef ≠ "~/.ssh/k.pem".data ∧
    keyPathOf exampleKeyDef = "~/.ssh/k.pem --dns".data ∧
    sContains (passThroughOf exampleKeyDef) ("--dns".data) = false := by
  exact ⟨by decide, by decide, by decide⟩

/-- Witness for the amended claim C1 at the example definition. -/
theorem C1_keyflag_consumed_witness :
    passThroughOf exampleKeyDef = [] ∧
    sContains (sshCmdOf false exampleKeyDef) (" -i ".data ++ keyPathOf exampleKeyDef) = true ∧
    sContains (sshCmdOf false exampleKeyDef) ("-i ~/.ssh/k.pem".data) = true :=
  ⟨(C1_keyflag_consumed exampleKeyDef false (by decide)).2.1,
   (C1_keyflag_consumed exampleKeyDef false (by decide)).2.2.1,
   by decide⟩

/-- C4: with one active session and three definitions the catalog is exactly one
`CURRENT TUNNEL` header, one active row, a separator, one `AVAILABLE TUNNELS`
header, the three available rows in definition order, a separator, and the
add-new action row, in that order. -/
theorem C4_catalog_shape (debugMode : Bool) (a : activeTunnel) (d1 d2 d3 : TunnelConfig) :
    loadAllItemsFrom debugMode [a] [d1, d2, d3] =
      [currentHeaderItem, activeItemOf a, separatorItem, availableHeaderItem,
        buildItem debugMode d1, buildItem debugMode d2, buildItem debugMode d3,
        separatorItem, addNewItem] ∧
    (loadAllItemsFrom debugMode [a] [d1, d2, d3]).map entryKind =
      [EntryKind.sectionHeader, EntryKind.activeRow, EntryKind.separator,
        EntryKind.sectionHeader, EntryKind.availableRow, EntryKind.availableRow,
        EntryKind.availableRow, EntryKind.separator, EntryKind.actionRow] ∧
    currentHeaderItem.name = "CURRENT TUNNEL".data ∧
    availableHeaderItem.name = "AVAILABLE TUNNELS".data ∧
    addNewItem.command = "add_new".data := by
  refine ⟨rfl, rfl, rfl, rfl, rfl⟩

/-- Rows generated from definitions are all available-tunnel rows. -/
theorem loadConfigItems_available (debugMode : Bool) (ts : List TunnelConfig) :
    ∀ i ∈ loadConfigItems debugMode ts, i.itemType = itemType.ItemAvailableTunnel := by
  intro i hi
  obtain ⟨t, _, rfl⟩ := List.mem_map.mp hi
  rfl

/-- C5: every catalog build contains at most one active-session row, and when the
scanned list is non-empty that row is built from its first element, all later
sessions being omitted. -/
theorem C5_single_active_row (debugMode : Bool) (acts : List activeTunnel)
    (ts : List TunnelConfig) :
    (loadAllItemsFrom debugMode acts ts).countP
      (fun i => decide (i.itemType = itemType.ItemActiveTunnel)) ≤ 1 ∧
    (∀ a rest, acts = a :: rest →
      (loadAllItemsFrom debugMode acts ts).filter
        (fun i => decide (i.itemType = itemType.ItemActiveTunnel)) = [activeItemOf a]) := by
  have hcfg0 : (loadConfigItems debugMode ts).countP
      (fun i => decide (i.itemType = itemType.ItemActiveTunnel)) = 0 := by
    rw [List.countP_eq_zero]
    intro i hi
    simp [loadConfigItems_available debugMode ts i hi]
  have hcfgf : (loadConfigItems debugMode ts).filter
      (fun i => decide (i.itemType = itemType.ItemActiveTunnel)) = [] := by
    rw [List.filter_eq_nil_iff]
    intro i hi
    simp [loadConfigItems_available debugMode ts i hi]
  constructor
  · cases acts with
    | nil =>
      simp [loadAllItemsFrom, List.countP_append, List.countP_cons, hcfg0,
        currentHeaderItem, separatorItem, availableHeaderItem, addNewItem]
    | cons a rest =>
      simp [loadAllItemsFrom, List.countP_append, List.countP_cons, hcfg0,
        currentHeaderItem, separatorItem, availableHeaderItem, addNewItem, activeItemOf]
  · rintro a rest rfl
    simp [loadAllItemsFrom, List.filter_append, hcfgf,
      currentHeaderItem, separatorItem, availableHeaderItem, addNewItem, activeItemOf]

/-- Two distinct active sessions used to instantiate claim C5. -/
def sessionA : activeTunnel := { PID := 11, Command := "ca".data, Destination := "da".data }

/-- Second of the two active sessions used to instantiate claim C5. -/
def sessionB : activeTunnel := { PID := 22, Command := "cb".data, Destination := "db".data }

/-- Witness for claim C5: a build from two active sessions keeps exactly the row of
the first. -/
theorem C5_single_active_row_witness :
    (loadAllItemsFrom false [sessionA, sessionB] []).countP
      (fun i => decide (i.itemType = itemType.ItemActiveTunnel)) ≤ 1 ∧
    (loadAllItemsFrom false [sessionA, sessionB] []).filter
      (fun i => decide (i.itemType = itemType.ItemActiveTunnel)) = [activeItemOf sessionA] := by
  obtain ⟨h1, h2⟩ := C5_single_active_row false [sessionA, sessionB] []
  exact ⟨h1, h2 sessionA [sessionB] rfl⟩

/-- C8: when the process table cannot be read, the scan error is logged and the
catalog build still succeeds with the same rows as for an empty session list. -/
theorem C8_scan_error_renders (debugMode : Bool) (ts : List TunnelConfig) :
    loadAllItemsE debugMode (Except.error ()) ts = (loadAllItemsFrom debugMode [] ts, true) ∧
    (loadAllItemsE debugMode (Except.error ()) ts).1 =
      (loadAllItemsE debugMode (Except.ok []) ts).1 ∧
    getActiveTunnels (Except.error ()) = Except.error () := by
  exact ⟨rfl, rfl, rfl⟩

/-- C10: every enter confirmation quits the navigation session, whatever the
cursor rests on. -/
theorem C10_confirm_quits (killOk : Int → Bool) (killErrText : Int → Str)
    (ps : Except Unit Str) (m : NavModel) :
    (confirmEnter killOk killErrText ps m).2.2 = true := by
  unfold confirmEnter
  rcases selectedItemOf m with _ | i
  · rfl
  · dsimp only
    split
    · split
      · split <;> rfl
      · rfl
      · split <;> rfl
    · rfl

/-- Section headers and separators are exactly the non-selectable kinds. -/
theorem kind_not_selectable (i : item)
    (hkind : entryKind i = EntryKind.sectionHeader ∨ entryKind i = EntryKind.separator) :
    isSelectableItem i = false := by
  unfold entryKind at hkind
  unfold isSelectableItem
  cases hty : i.itemType with
  | ItemActiveTunnel => rw [hty] at hkind; simp at hkind
  | ItemAvailableTunnel => rw [hty] at hkind; simp at hkind
  | ItemAction =>
    rw [hty] at hkind
    by_cases h1 : i.name.isEmpty
    · simp [hty, h1]
    · by_cases h2 : sContains i.name ("TUNNEL".data)
      · simp [hty, h1, h2]
      · simp [h1, h2] at hkind

/-- C7: confirming while the cursor rests on a section header or separator is a
no-op: the model (including the choice field) is unchanged and no external call
is issued. -/
theorem C7_confirm_nonselectable_noop (killOk : Int → Bool) (killErrText : Int → Str)
    (ps : Except Unit Str) (m : NavModel) (i : item)
    (hsel : selectedItemOf m = some i)
    (hkind : entryKind i = EntryKind.sectionHeader ∨ entryKind i = EntryKind.separator) :
    confirmEnter killOk killErrText ps m = (m, [], true) ∧
    (confirmEnter killOk killErrText ps m).1.choice = m.choice ∧
    confirmEvents killOk killErrText ps m = [] := by
  have hns := kind_not_selectable i hkind
  have hstep : confirmEnter killOk killErrText ps m = (m, [], true) := by
    unfold confirmEnter
    rw [hsel]
    dsimp only
    rw [hns]
    simp
  exact ⟨hstep, by rw [hstep], by simp [confirmEvents, hstep]⟩

/-- A model whose cursor rests on the `CURRENT TUNNEL` header. -/
def headerModel : NavModel := { items := [currentHeaderItem, addNewItem], index := 0 }

/-- Witness for claim C7 at a concrete model with the cursor on a section header. -/
theorem C7_confirm_nonselectable_noop_witness :
    confirmEnter (fun _ => true) (fun _ => []) (Except.error ()) headerModel =
      (headerModel, [], true) :=
  (C7_confirm_nonselectable_noop (fun _ => true) (fun _ => []) (Except.error ())
    headerModel currentHeaderItem rfl (Or.inl (by decide))).1

/-- Soundness of the forward scan: a hit is the first selectable index at or
after the start. -/
theorem findFromAux_some {l : List item} {f i j : Nat}
    (h : findFromAux l f i = some j) :
    i ≤ j ∧ isSelectableAt l j = true ∧ ∀ k, i ≤ k → k < j → isSelectableAt l k = false := by
  induction f generalizing i with
  | zero => simp [findFromAux] at h
  | succ f ih =>
    unfold findFromAux at h
    cases hg : l[i]? with
    | none => rw [hg] at h; simp at h
    | some it =>
      rw [hg] at h
      dsimp only at h
      cases hs : isSelectableItem it with
      | true =>
        rw [hs] at h
        simp at h
        subst h
        refine ⟨Nat.le_refl i, by simp [isSelectableAt, hg, hs], ?_⟩
        intro k hk1 hk2
        omega
      | false =>
        rw [hs] at h
        simp at h
        obtain ⟨h1, h2, h3⟩ := ih h
        refine ⟨by omega, h2, ?_⟩
        intro k hk1 hk2
        rcases Nat.eq_or_lt_of_le hk1 with rfl | hlt
        · simp [isSelectableAt, hg, hs]
        · exact h3 k (by omega) hk2

/-- Completeness of the forward scan with adequate fuel: a miss means no
selectable index at or after the start. -/
theorem findFromAux_none {l : List item} {f i : Nat}
    (hf : l.length ≤ f + i) (h : findFromAux l f i = none) :
    ∀ k, i ≤ k → isSelectableAt l k = false := by
  induction f generalizing i with
  | zero =>
    intro k hk
    have hlen : l.length ≤ k := by omega
    simp [isSelectableAt, List.getElem?_eq_none hlen]
  | succ f ih =>
    unfold findFromAux at h
    cases hg : l[i]? with
    | none =>
      intro k hk
      have hlen : l.length ≤ i := by
        by_contra hcon
        rw [Nat.not_le] at hcon
        rw [List.getElem?_eq_getElem hcon] at hg
        exact Option.noConfusion hg
      simp [isSelectableAt, List.getElem?_eq_none (by omega : l.length ≤ k)]
    | some it =>
      rw [hg] at h
      dsimp only at h
      cases hs : isSelectableItem it with
      | true => rw [hs] at h; simp at h
      | false =>
        rw [hs] at h
        simp at h
        intro k hk
        rcases Nat.eq_or_lt_of_le hk with rfl | hlt
        · simp [isSelectableAt, hg, hs]
        · exact ih (by omega) h k (by omega)

/-- Soundness of the backward scan: a hit is the first selectable index at or
below the start. -/
theorem moveUpScan_some {l : List item} {j k : Nat} (h : moveUpScan l j = some k) :
    k ≤ j ∧ isSelectableAt l k = true ∧ ∀ n, k < n → n ≤ j → isSelectableAt l n = false := by
  induction j with
  | zero =>
    unfold moveUpScan at h
    cases hs : isSelectableAt l 0 with
    | true =>
      rw [hs] at h
      simp at h
      subst h
      exact ⟨Nat.le_refl 0, hs, fun n h1 h2 => absurd h2 (by omega)⟩
    | false => rw [hs] at h; simp at h
  | succ j ih =>
    unfold moveUpScan at h
    cases hs : isSelectableAt l (j + 1) with
    | true =>
      rw [hs] at h
      simp at h
      subst h
      exact ⟨Nat.le_refl _, hs, fun n h1 h2 => absurd h2 (by omega)⟩
    | false =>
      rw [hs] at h
      simp at h
      obtain ⟨h1, h2, h3⟩ := ih h
      refine ⟨by omega, h2, ?_⟩
      intro n hn1 hn2
      rcases Nat.eq_or_lt_of_le hn2 with rfl | hlt
      · exact hs
      · exact h3 n hn1 (by omega)

/-- Completeness of the backward scan: a miss means no selectable index at or
below the start. -/
theorem moveUpScan_none {l : List item} {j : Nat} (h : moveUpScan l j = none) :
    ∀ n, n ≤ j → isSelectableAt l n = false := by
  induction j with
  | zero =>
    unfold moveUpScan at h
    cases hs : isSelectableAt l 0 with
    | true => rw [hs] at h; simp at h
    | false =>
      intro n hn
      have : n = 0 := by omega
      subst this
      exact hs
  | succ j ih =>
    unfold moveUpScan at h
    cases hs : isSelectableAt l (j + 1) with
    | true => rw [hs] at h; simp at h
    | false =>
      rw [hs] at h
      simp at h
      intro n hn
      rcases Nat.eq_or_lt_of_le hn with rfl | hlt
      · exact hs
      · exact ih h n (by omega)

/-- C6: `moveDown` and `moveUp` scan linearly in the requested direction and move
the cursor to the first selectable entry found: whenever some selectable entry
exists in that direction the cursor lands on a selectable entry strictly in that
direction, no farther than that entry, with nothing selectable skipped in
between (so it rests on the nearest one); when none exists the cursor does not
move (no wraparound). -/
theorem C6_cursor_motion (l : List item) (idx : Nat) :
    (∀ j, idx < j → isSelectableAt l j = true →
      idx < moveDown l idx ∧ isSelectableAt l (moveDown l idx) = true ∧
        moveDown l idx ≤ j ∧
        ∀ k, idx < k → k < moveDown l idx → isSelectableAt l k = false) ∧
    ((∀ j, idx < j → isSelectableAt l j = false) → moveDown l idx = idx) ∧
    (∀ j, j < idx → isSelectableAt l j = true →
      moveUp l idx < idx ∧ isSelectableAt l (moveUp l idx) = true ∧
        j ≤ moveUp l idx ∧
        ∀ k, moveUp l idx < k → k < idx → isSelectableAt l k = false) ∧
    ((∀ j, j < idx → isSelectableAt l j = false) → moveUp l idx = idx) := by
  refine ⟨?_, ?_, ?_, ?_⟩
  · intro j hj hjsel
    unfold moveDown
    cases hf : findFromAux l l.length (idx + 1) with
    | none =>
      have hmiss := findFromAux_none (by omega) hf j (by omega)
      rw [hjsel] at hmiss
      exact Bool.noConfusion hmiss
    | some r =>
      dsimp only
      obtain ⟨h1, h2, h3⟩ := findFromAux_some hf
      refine ⟨by omega, h2, ?_, fun k hk1 hk2 => h3 k (by omega) hk2⟩
      by_contra hc
      rw [Nat.not_le] at hc
      have hmiss := h3 j (by omega) hc
      rw [hjsel] at hmiss
      exact Bool.noConfusion hmiss
  · intro hnone
    unfold moveDown
    cases hf : findFromAux l l.length (idx + 1) with
    | none => rfl
    | some j =>
      obtain ⟨h1, h2, _⟩ := findFromAux_some hf
      rw [hnone j (by omega)] at h2
      exact Bool.noConfusion h2
  · intro j hj hjsel
    cases idx with
    | zero => exact absurd hj (by omega)
    | succ n =>
      have hshow : moveUp l (n + 1) =
          (match moveUpScan l n with | some k => k | none => n + 1) := rfl
      rw [hshow]
      cases hm : moveUpScan l n with
      | none =>
        have hmiss := moveUpScan_none hm j (by omega)
        rw [hjsel] at hmiss
        exact Bool.noConfusion hmiss
      | some k =>
        dsimp only
        obtain ⟨h1, h2, h3⟩ := moveUpScan_some hm
        refine ⟨by omega, h2, ?_, fun k2 hk1 hk2 => h3 k2 hk1 (by omega)⟩
        by_contra hc
        rw [Nat.not_le] at hc
        have hmiss := h3 j hc (by omega)
        rw [hjsel] at hmiss
        exact Bool.noConfusion hmiss
  · intro hnone
    cases idx with
    | zero => rfl
    | succ j =>
      have hshow : moveUp l (j + 1) =
          (match moveUpScan l j with | some k => k | none => j + 1) := rfl
      rw [hshow]
      cases hm : moveUpScan l j with
      | none => rfl
      | some k =>
        obtain ⟨h1, h2, _⟩ := moveUpScan_some hm
        rw [hnone k (by omega)] at h2
        exact Bool.noConfusion h2

/-- A four-row catalog used to instantiate claim C6. -/
def navDemoItems : List item :=
  [currentHeaderItem, activeItemOf ⟨7, "c".data, "d".data⟩, separatorItem, addNewItem]

/-- Witness for claim C6: on a concrete catalog whose selectable rows sit at
indices 1 and 3, `moveDown` from 1 skips the separator and lands on 3, `moveUp`
from 3 skips it and lands on 1, while `moveDown` from the last selectable row
and `moveUp` from the first selectable row leave the cursor unchanged. -/
theorem C6_cursor_motion_witness :
    moveDown navDemoItems 1 = 3 ∧ moveUp navDemoItems 3 = 1 ∧
    moveDown navDemoItems 3 = 3 ∧ moveUp navDemoItems 1 = 1 := by
  have hd := (C6_cursor_motion navDemoItems 1).1 3 (by omega) (by decide)
  have hu := (C6_cursor_motion navDemoItems 3).2.2.1 1 (by omega) (by decide)
  refine ⟨?_, ?_, ?_, ?_⟩
  · obtain ⟨h1, h2, h3, _⟩ := hd
    have hm : moveDown navDemoItems 1 = 2 ∨ moveDown navDemoItems 1 = 3 := by omega
    rcases hm with hm | hm
    · rw [hm] at h2
      exact absurd h2 (by decide)
    · exact hm
  · obtain ⟨h1, h2, h3, _⟩ := hu
    have hm : moveUp navDemoItems 3 = 1 ∨ moveUp navDemoItems 3 = 2 := by omega
    rcases hm with hm | hm
    · exact hm
    · rw [hm] at h2
      exact absurd h2 (by decide)
  · refine (C6_cursor_motion navDemoItems 3).2.1 ?_
    intro j hj
    have hlen : navDemoItems.length ≤ j := by
      have h4 : navDemoItems.length = 4 := rfl
      omega
    simp [isSelectableAt, List.getElem?_eq_none hlen]
  · refine (C6_cursor_motion navDemoItems 1).2.2.2 ?_
    intro j hj
    have : j = 0 := by omega
    subst this
    decide

/-- C3: confirming an available-tunnel row issues one termination request per
scanned active session, in scan order, and only afterwards yields the row's
resolved command: in the emitted call sequence every kill strictly precedes every
yield. -/
theorem C3_kill_before_yield (killOk : Int → Bool) (killErrText : Int → Str)
    (psText : Str) (m : NavModel) (i : item) (acts : List activeTunnel)
    (hsel : selectedItemOf m = some i)
    (hok : isSelectableItem i = true)
    (hty : i.itemType = itemType.ItemAvailableTunnel)
    (hacts : getActiveTunnels (Except.ok psText) = Except.ok acts) :
    confirmEvents killOk killErrText (Except.ok psText) m =
      acts.map (fun t => ExtEvent.killReq t.PID) ++ [ExtEvent.yieldCmd i.command] ∧
    (∀ (k : Nat) (a : activeTunnel), acts[k]? = some a →
      (confirmEvents killOk killErrText (Except.ok psText) m)[k]? =
        some (ExtEvent.killReq a.PID)) ∧
    (confirmEvents killOk killErrText (Except.ok psText) m)[acts.length]? =
      some (ExtEvent.yieldCmd i.command) ∧
    (∀ (j : Nat) (cmd : Str) (k : Nat) (p : Int),
      (confirmEvents killOk killErrText (Except.ok psText) m)[j]? =
          some (ExtEvent.yieldCmd cmd) →
      (confirmEvents killOk killErrText (Except.ok psText) m)[k]? =
          some (ExtEvent.killReq p) →
      k < j) := by
  have htr : confirmEvents killOk killErrText (Except.ok psText) m =
      acts.map (fun t => ExtEvent.killReq t.PID) ++ [ExtEvent.yieldCmd i.command] := by
    unfold confirmEvents confirmEnter killAllTrace
    simp only [hsel, hok, hty, hacts]
    simp
  refine ⟨htr, ?_, ?_, ?_⟩
  · intro k a hka
    have hk : k < acts.length := by
      rcases List.getElem?_eq_some.mp hka with ⟨h, _⟩
      exact h
    rw [htr, List.getElem?_append, if_pos (by simpa using hk), List.getElem?_map, hka]
    rfl
  · rw [htr, List.getElem?_append_right (by simp)]
    simp
  · intro j cmd k p hj hk
    rw [htr] at hj hk
    have hkL : k < (acts.map (fun t => ExtEvent.killReq t.PID)).length := by
      by_contra hc
      rw [Nat.not_lt] at hc
      rw [List.getElem?_append_right hc] at hk
      rcases hkk : k - (acts.map (fun t => ExtEvent.killReq t.PID)).length with _ | n
      · rw [hkk] at hk
        simp at hk
      · rw [hkk] at hk
        simp at hk
    have hjL : (acts.map (fun t => ExtEvent.killReq t.PID)).length ≤ j := by
      by_contra hc
      rw [Nat.not_le] at hc
      rw [List.getElem?_append, if_pos hc, List.getElem?_map] at hj
      cases hja : acts[j]? with
      | none => rw [hja] at hj; simp at hj
      | some a => rw [hja] at hj; simp at hj
    omega

/-- The available-tunnel row used to instantiate claim C3. -/
def availRowW : item :=
  { name := "w".data, destination := "u@h".data, command := "CMD".data,
    itemType := .ItemAvailableTunnel }

/-- A model whose cursor rests on `availRowW`. -/
def availModelW : NavModel := { items := [availRowW], index := 0 }

/-- A process table with two active sshuttle sessions. -/
def psTwoSessions : Str := ("sshuttle 11 -r a\nsshuttle 22 -r b").data

/-- Witness for claim C3: with two scanned sessions, the emitted call sequence is
kill 11, kill 22, then the launch command. -/
theorem C3_kill_before_yield_witness :
    confirmEvents (fun _ => true) (fun _ => []) (Except.ok psTwoSessions) availModelW =
      [ExtEvent.killReq 11, ExtEvent.killReq 22, ExtEvent.yieldCmd ("CMD".data)] := by
  have h := C3_kill_before_yield (fun _ => true) (fun _ => []) psTwoSessions availModelW
    availRowW
    [⟨11, "sshuttle 11 -r a".data, "a".data⟩, ⟨22, "sshuttle 22 -r b".data, "b".data⟩]
    rfl rfl rfl rfl
  exact h.1

/-- C9 (amended): a line matching the scanner's filter whose second
whitespace-delimited field fails Go integer parsing is excluded from the scan
result while the other lines are still processed, and an input with zero matching
lines yields an empty list with no error. -/
theorem C9_malformed_line_skipped (out : Str) :
    (∀ pre bad post, linesGo out = pre ++ bad :: post →
      lineMatches bad = true → secondFieldInt bad = none →
      getActiveTunnels (Except.ok out) =
        Except.ok (pre.filterMap processLine ++ post.filterMap processLine)) ∧
    ((∀ l ∈ linesGo out, lineMatches l = false) →
      getActiveTunnels (Except.ok out) = Except.ok []) := by
  constructor
  · intro pre bad post hsplit hmatch hparse
    have hnone : processLine bad = none := by
      unfold processLine
      rw [hmatch]
      unfold secondFieldInt at hparse
      cases hf : fieldsGo bad with
      | nil => simp
      | cons f0 rest =>
        cases rest with
        | nil => simp
        | cons f1 rest2 =>
          rw [hf] at hparse
          dsimp only at hparse ⊢
          rw [hparse]
          simp
    unfold getActiveTunnels
    dsimp only
    rw [hsplit, List.filterMap_append]
    simp [List.filterMap_cons, hnone]
  · intro hall
    unfold getActiveTunnels
    dsimp only
    have hnil : (linesGo out).filterMap processLine = [] := by
      rw [List.filterMap_eq_nil_iff]
      intro l hl
      unfold processLine
      rw [hall l hl]
      simp
    rw [hnil]

/-- A process table mixing a malformed line (non-numeric second field) with a
valid one. -/
def psMixed : Str := ("sshuttle abc -r h\nsshuttle 7 -r k").data

/-- Witness for claim C9: the malformed line is dropped, the valid line is kept,
and a non-matching input scans to the empty list. -/
theorem C9_malformed_line_skipped_witness :
    getActiveTunnels (Except.ok psMixed) =
      Except.ok [{ PID := 7, Command := "sshuttle 7 -r k".data, Destination := "k".data }] ∧
    getActiveTunnels (Except.ok ("hello world".data)) = Except.ok [] := by
  constructor
  · have h := (C9_malformed_line_skipped psMixed).1 [] ("sshuttle abc -r h".data)
      ["sshuttle 7 -r k".data] rfl (by decide) (by decide)
    exact h
  · exact (C9_malformed_line_skipped ("hello world".data)).2 (by decide)

/-- A matching line whose second field is `0`: a valid Go integer but not a
positive one. -/
def psZeroPid : Str := "sshuttle 0 -r host".data

/-- C9 counterexample: the claim says a matching line whose second field is not a
valid positive integer is excluded, but the scanner accepts any `strconv.Atoi`
integer: the line with pid field `"0"` is included in the result. -/
theorem C9_positive_int_counterexample :
    lineMatches psZeroPid = true ∧
    (fieldsGo psZeroPid)[1]? = some ("0".data) ∧
    ¬ (0 : Int) > 0 ∧
    getActiveTunnels (Except.ok psZeroPid) =
      Except.ok [{ PID := 0, Command := psZeroPid, Destination := "host".data }] := by
  exact ⟨by decide, by decide, by decide, rfl⟩

end SSel
